import Mathlib

/-!
Verification development for the `stackmap-rs` LLVM stack-map decoder.

The decoder is shallowly embedded: the input section is a list of byte
values (`Bytes`), nom's complete-input primitives (`le_u8`, `le_u16`,
`le_u32`, `le_u64`, `le_i32`, `take`) are modelled as functions returning
a `POut` value, and each parser of `parser.rs` is translated line by line.

A Rust panic (slice-index panic in `Error::from_error_kind`, the
`Vec::split_off` out-of-bounds panic in `parse_function`, the `assert!`
in `RecordsIter::next`, or an arithmetic failure) is modelled by the
distinguished outcome `POut.panicked`, so that divergence from ordinary
error returns stays observable.
-/

namespace StackMapRs

/-- Byte buffers are lists of natural numbers; real inputs have entries
below 256, and the little-endian readers only ever combine entries with
weights 256^i, matching the machine reads on byte-valued lists. -/
abbrev Bytes := List Nat

/-- Little-endian value of a byte list: the first element is the least
significant byte. -/
def leVal (l : Bytes) : Nat := l.foldr (fun b acc => b + 256 * acc) 0

/-- The nom error kinds actually reachable in this crate: the complete
`take` and number parsers fail only with `ErrorKind::Eof`. -/
inductive ErrorKind
  | eof
deriving DecidableEq

/-- Embedding of `enum Error` from `lib.rs`. -/
inductive Error
  | parserError (input : Bytes) (kind : ErrorKind)
  | unsupportedVersion
  | malformedHeader
  | functionRecordMismatch
  | malformedReserved
  | invalidConstantIndex (index : Int)
  | invalidLocationKind (invalidKind : Nat)
deriving DecidableEq

/-- Outcome of a fallible computation: success, a returned `Error`, or a
Rust panic. -/
inductive POut (α : Type)
  | ok (v : α)
  | fail (e : Error)
  | panicked
deriving DecidableEq

/-- Sequencing of fallible steps, the embedding of nom's `tuple` / `?`
chaining inside one parser. -/
def POut.bind {α β : Type} (x : POut α) (f : α → POut β) : POut β :=
  match x with
  | .ok v => f v
  | .fail e => .fail e
  | .panicked => .panicked

/-- Embedding of `Error::from_error_kind` (parser.rs lines 19-43): it
slices the first eight bytes of the remaining input, which panics with a
slice-index error when fewer than eight bytes remain. -/
def mkErr {α : Type} (input : Bytes) (kind : ErrorKind) : POut α :=
  if input.length < 8 then .panicked
  else .fail (.parserError (input.take 8) kind)

/-- Common shape of nom's complete little-endian unsigned readers: read
`width` bytes from the front, or fail with `ErrorKind::Eof` on the
remaining input. -/
def leUint (width : Nat) (l : Bytes) : POut (Bytes × Nat) :=
  if l.length < width then mkErr l .eof
  else .ok (l.drop width, leVal (l.take width))

def le_u8 (l : Bytes) : POut (Bytes × Nat) := leUint 1 l

def le_u16 (l : Bytes) : POut (Bytes × Nat) := leUint 2 l

def le_u32 (l : Bytes) : POut (Bytes × Nat) := leUint 4 l

def le_u64 (l : Bytes) : POut (Bytes × Nat) := leUint 8 l

/-- Two's-complement reading of a 32-bit value as a signed integer. -/
def toSigned32 (v : Nat) : Int :=
  if v % 2 ^ 32 < 2 ^ 31 then ((v % 2 ^ 32 : Nat) : Int)
  else ((v % 2 ^ 32 : Nat) : Int) - 2 ^ 32

/-- Embedding of nom's `le_i32`. -/
def le_i32 (l : Bytes) : POut (Bytes × Int) :=
  POut.bind (leUint 4 l) fun rv => .ok (rv.1, toSigned32 rv.2)

/-- Embedding of nom's complete `take(n)`. -/
def takeB (n : Nat) (l : Bytes) : POut (Bytes × Bytes) :=
  if l.length < n then mkErr l .eof
  else .ok (l.drop n, l.take n)

/-- Rust cast `i32 as u64`: sign-extension, i.e. the value modulo 2^64
reinterpreted as unsigned. -/
def i32_as_u64 (i : Int) : Nat := (i % (2 : Int) ^ 64).toNat

def STACK_SIZE_RECORD_SIZE : Nat := 24

def CONSTANT_SIZE : Nat := 8

def LOCATION_SIZE : Nat := 12

def LIVE_OUT_SIZE : Nat := 4

def ALIGNMENT_BYTES : Nat := 8

/-- Embedding of `padding_size` (parser.rs lines 55-57). -/
def padding_size (parsed_bytes alignment_bytes : Nat) : Nat :=
  (alignment_bytes - parsed_bytes % alignment_bytes) % alignment_bytes

/-- Embedding of `LocationKind` from `lib.rs`. -/
inductive LocationKind
  | register (reg : Nat)
  | direct (register : Nat) (offset : Int)
  | indirect (register : Nat) (offset : Int)
  | constant (value : Nat)
deriving DecidableEq

structure Location where
  kind : LocationKind
  size : Nat
deriving DecidableEq

structure LiveOut where
  dwarf_reg_num : Nat
  size : Nat
deriving DecidableEq

structure Record where
  patch_point_id : Nat
  instruction_offset : Nat
  num_locations : Nat
  num_live_outs : Nat
  locations : Bytes
  live_outs : Bytes
  constants : List Nat
deriving DecidableEq

structure Function where
  address : Nat
  stack_size : Nat
  records : List Bytes
  constants : List Nat
deriving DecidableEq

structure StackMap where
  version : Nat
  num_functions : Nat
  functions : Bytes
  record_slices : List Bytes
  constants : List Nat
deriving DecidableEq

/-- Embedding of `parse_header` (parser.rs lines 45-53). -/
def parse_header (input : Bytes) : POut (Bytes × Nat) :=
  POut.bind (le_u8 input) fun rv1 =>
  POut.bind (le_u8 rv1.1) fun rv2 =>
  POut.bind (le_u16 rv2.1) fun rv3 =>
  if rv2.2 ≠ 0 ∨ rv3.2 ≠ 0 then .fail .malformedHeader
  else .ok (rv3.1, rv1.2)

/-- Embedding of `parse_record` (parser.rs lines 59-93). The constant
pool is passed through unchanged, exactly as in the source. -/
def parse_record (input : Bytes) (constants : List Nat) : POut (Bytes × Record) :=
  POut.bind (le_u64 input) fun r1 =>
  POut.bind (le_u32 r1.1) fun r2 =>
  POut.bind (le_u16 r2.1) fun r3 =>
  POut.bind (le_u16 r3.1) fun r4 =>
  let locations_bytes := r4.2 * LOCATION_SIZE
  POut.bind (takeB locations_bytes r4.1) fun r5 =>
  let parsed_bytes := input.length - r5.1.length
  POut.bind (takeB (padding_size parsed_bytes ALIGNMENT_BYTES) r5.1) fun r6 =>
  POut.bind (le_u16 r6.1) fun r7 =>
  POut.bind (le_u16 r7.1) fun r8 =>
  let live_outs_bytes := r8.2 * LIVE_OUT_SIZE
  POut.bind (takeB live_outs_bytes r8.1) fun r9 =>
  let parsed_bytes2 := input.length - r9.1.length
  POut.bind (takeB (padding_size parsed_bytes2 ALIGNMENT_BYTES) r9.1) fun r10 =>
  .ok (r10.1,
    { patch_point_id := r1.2
      instruction_offset := r2.2
      num_locations := r4.2
      num_live_outs := r8.2
      locations := r5.2
      live_outs := r9.2
      constants := constants })

/-- Decoding of the constant-pool bytes into u64 values. The source
obtains this slice by `slice::from_raw_parts(ptr.cast::<u64>(), n)`, a
raw-memory reinterpretation; on the little-endian host the crate targets
this coincides with chunkwise little-endian decoding, which is what is
embedded here (the cast itself is host-byte-order dependent and is
undefined behavior when the pool region is not 8-byte aligned). -/
def decode_constants (b : Bytes) (n : Nat) : List Nat :=
  (List.range n).map fun i => leVal ((b.drop (8 * i)).take 8)

/-- Embedding of the record pre-scan loop of `parse_stack_map`
(parser.rs lines 114-124): each record is parsed once to find its
length, and the raw byte range of that length is retained. -/
def prescan (constants : List Nat) : Nat → Bytes → POut (Bytes × List Bytes)
  | 0, rest => .ok (rest, [])
  | n + 1, rest =>
    POut.bind (parse_record rest constants) fun pr =>
    let record_size := rest.length - pr.1.length
    POut.bind (prescan constants n pr.1) fun tail =>
    .ok (tail.1, rest.take record_size :: tail.2)

/-- Embedding of `parse_stack_map` (parser.rs lines 95-136). -/
def parse_stack_map (input : Bytes) : POut (Bytes × StackMap) :=
  POut.bind (parse_header input) fun h =>
  if h.2 ≠ 3 then .fail .unsupportedVersion
  else
  POut.bind (le_u32 h.1) fun c1 =>
  POut.bind (le_u32 c1.1) fun c2 =>
  POut.bind (le_u32 c2.1) fun c3 =>
  POut.bind (takeB (c1.2 * STACK_SIZE_RECORD_SIZE) c3.1) fun fns =>
  POut.bind (takeB (c2.2 * CONSTANT_SIZE) fns.1) fun cb =>
  let constants := decode_constants cb.2 c2.2
  POut.bind (prescan constants c3.2 cb.1) fun ps =>
  .ok (ps.1,
    { version := h.2
      num_functions := c1.2
      functions := fns.2
      record_slices := ps.2
      constants := constants })

/-- Embedding of `parse_function` (parser.rs lines 139-155). The source
calls `records.split_off(record_count as usize)`, which panics when the
count exceeds the list length; the function keeps the head part and
hands the tail back for the remaining functions. -/
def parse_function (input : Bytes) (records : List Bytes) (constants : List Nat) :
    POut (Bytes × List Bytes × Function) :=
  POut.bind (le_u64 input) fun r1 =>
  POut.bind (le_u64 r1.1) fun r2 =>
  POut.bind (le_u64 r2.1) fun r3 =>
  if records.length < r3.2 then .panicked
  else .ok (r3.1, records.drop r3.2,
    { address := r1.2
      stack_size := r2.2
      records := records.take r3.2
      constants := constants })

/-- Embedding of `parse_location` (parser.rs lines 157-196). -/
def parse_location (input : Bytes) (constants : List Nat) : POut (Bytes × Location) :=
  POut.bind (le_u8 input) fun r1 =>
  POut.bind (le_u8 r1.1) fun r2 =>
  POut.bind (le_u16 r2.1) fun r3 =>
  POut.bind (le_u16 r3.1) fun r4 =>
  POut.bind (le_u16 r4.1) fun r5 =>
  POut.bind (le_i32 r5.1) fun r6 =>
  if r2.2 ≠ 0 ∨ r5.2 ≠ 0 then .fail .malformedReserved
  else
  match r1.2 with
  | 1 => .ok (r6.1, { kind := .register r4.2, size := r3.2 })
  | 2 => .ok (r6.1, { kind := .direct r4.2 r6.2, size := r3.2 })
  | 3 => .ok (r6.1, { kind := .indirect r4.2 r6.2, size := r3.2 })
  | 4 => .ok (r6.1, { kind := .constant (i32_as_u64 r6.2), size := r3.2 })
  | 5 =>
    if r6.2 < 0 ∨ constants.length ≤ r6.2.toNat then
      .fail (.invalidConstantIndex r6.2)
    else .ok (r6.1, { kind := .constant (constants.getD r6.2.toNat 0), size := r3.2 })
  | invalid_kind => .fail (.invalidLocationKind invalid_kind)

/-- Embedding of `parse_live_out` (parser.rs lines 198-208). -/
def parse_live_out (input : Bytes) : POut (Bytes × LiveOut) :=
  POut.bind (le_u16 input) fun r1 =>
  POut.bind (le_u8 r1.1) fun r2 =>
  POut.bind (le_u8 r2.1) fun r3 =>
  .ok (r3.1, { dwarf_reg_num := r1.2, size := r3.2 })

/-- One step of a fallible iterator: end of iteration, a yielded item
together with the advanced iterator state, a returned error, or a panic. -/
inductive Step (σ α : Type)
  | done
  | yield (s : σ) (a : α)
  | fail (e : Error)
  | panicked
deriving DecidableEq

/-- State of `FunctionsIter` (lib.rs lines 80-85). -/
structure FunctionsIter where
  data : Bytes
  record_slices : List Bytes
  constants : List Nat
  remaining_functions : Nat
deriving DecidableEq

/-- Embedding of `FunctionsIter::next` (lib.rs lines 91-116). The
`remaining_functions` counter is decremented with truncating subtraction;
on every state the decoder can construct it is positive at that point. -/
def FunctionsIter.next (it : FunctionsIter) : Step FunctionsIter Function :=
  if it.data = [] then
    if it.record_slices = [] then .done else .fail .functionRecordMismatch
  else
    match parse_function it.data it.record_slices it.constants with
    | .ok (rest, rest_records, f) =>
      .yield { data := rest, record_slices := rest_records,
               constants := it.constants,
               remaining_functions := it.remaining_functions - 1 } f
    | .fail e => .fail e
    | .panicked => .panicked

/-- Embedding of `FunctionsIter::size_hint` (lib.rs lines 118-120). -/
def FunctionsIter.size_hint (it : FunctionsIter) : Nat × Option Nat :=
  (it.remaining_functions, some it.remaining_functions)

/-- Embedding of `StackMap::functions` (lib.rs lines 70-77); named
`functionsIter` because the structure field is already called
`functions`. -/
def StackMap.functionsIter (sm : StackMap) : FunctionsIter :=
  { data := sm.functions, record_slices := sm.record_slices,
    constants := sm.constants, remaining_functions := sm.num_functions }

/-- State of `RecordsIter` (lib.rs lines 154-158). -/
structure RecordsIter where
  records : List Bytes
  constants : List Nat
  remaining_records : Nat
deriving DecidableEq

/-- Embedding of `RecordsIter::next` (lib.rs lines 164-178); the
`assert!(rest.is_empty())` becomes a panic when the re-parse of a
pre-scanned record slice leaves bytes over. -/
def RecordsIter.next (it : RecordsIter) : Step RecordsIter Record :=
  match it.records with
  | [] => .done
  | slice :: tl =>
    match parse_record slice it.constants with
    | .ok (rest, rec) =>
      if rest = [] then
        .yield { records := tl, constants := it.constants,
                 remaining_records := it.remaining_records - 1 } rec
      else .panicked
    | .fail e => .fail e
    | .panicked => .panicked

/-- Embedding of `RecordsIter::size_hint` (lib.rs lines 180-183). -/
def RecordsIter.size_hint (it : RecordsIter) : Nat × Option Nat :=
  (it.remaining_records, some it.remaining_records)

/-- Embedding of `Function::records` (lib.rs lines 145-151); named
`recordsIter` because the structure field is already called `records`. -/
def Function.recordsIter (f : Function) : RecordsIter :=
  { records := f.records, constants := f.constants,
    remaining_records := f.records.length }

/-- State of `LocationsIter` (lib.rs lines 230-234). -/
structure LocationsIter where
  data : Bytes
  constants : List Nat
  remaining_locations : Nat
deriving DecidableEq

/-- Embedding of `LocationsIter::next` (lib.rs lines 240-253). -/
def LocationsIter.next (it : LocationsIter) : Step LocationsIter Location :=
  if it.data = [] then .done
  else
    match parse_location it.data it.constants with
    | .ok (rest, loc) =>
      .yield { data := rest, constants := it.constants,
               remaining_locations := it.remaining_locations - 1 } loc
    | .fail e => .fail e
    | .panicked => .panicked

/-- Embedding of `LocationsIter::size_hint` (lib.rs lines 255-257). -/
def LocationsIter.size_hint (it : LocationsIter) : Nat × Option Nat :=
  (it.remaining_locations, some it.remaining_locations)

/-- Embedding of `Record::locations` (lib.rs lines 210-216). -/
def Record.locationsIter (r : Record) : LocationsIter :=
  { data := r.locations, constants := r.constants,
    remaining_locations := r.num_locations }

/-- State of `LiveOutsIter` (lib.rs lines 260-263). -/
structure LiveOutsIter where
  data : Bytes
  remaining_live_outs : Nat
deriving DecidableEq

/-- Embedding of `LiveOutsIter::next` (lib.rs lines 269-282). -/
def LiveOutsIter.next (it : LiveOutsIter) : Step LiveOutsIter LiveOut :=
  if it.data = [] then .done
  else
    match parse_live_out it.data with
    | .ok (rest, lo) =>
      .yield { data := rest, remaining_live_outs := it.remaining_live_outs - 1 } lo
    | .fail e => .fail e
    | .panicked => .panicked

/-- Embedding of `LiveOutsIter::size_hint` (lib.rs lines 284-286). -/
def LiveOutsIter.size_hint (it : LiveOutsIter) : Nat × Option Nat :=
  (it.remaining_live_outs, some it.remaining_live_outs)

/-- Embedding of `Record::live_outs` (lib.rs lines 222-227); named
`liveOutsIter` because the structure field is already called
`live_outs`. -/
def Record.liveOutsIter (r : Record) : LiveOutsIter :=
  { data := r.live_outs, remaining_live_outs := r.num_live_outs }

/-- Driving loop of `FallibleIterator::collect`: repeatedly call `next`
until the iterator is done or an error or panic is hit. Every iterator of
this crate strictly shrinks its state on each yielded item, so a fuel of
one more than the state size always suffices; the fuel-exhausted branch
is unreachable for the fuel values used below. -/
def collectSteps {σ α : Type} (next : σ → Step σ α) : Nat → σ → POut (List α)
  | 0, _ => .panicked
  | fuel + 1, s =>
    match next s with
    | .done => .ok []
    | .fail e => .fail e
    | .panicked => .panicked
    | .yield s' a =>
      match collectSteps next fuel s' with
      | .ok xs => .ok (a :: xs)
      | .fail e => .fail e
      | .panicked => .panicked

/-- Collecting all functions: each yielded function consumes 24 bytes of
the function table, so `data.length + 1` steps always reach the end. -/
def FunctionsIter.run (it : FunctionsIter) : POut (List Function) :=
  collectSteps FunctionsIter.next (it.data.length + 1) it

/-- Collecting all records: each yielded record consumes one slice. -/
def RecordsIter.run (it : RecordsIter) : POut (List Record) :=
  collectSteps RecordsIter.next (it.records.length + 1) it

/-- Collecting all locations: each yielded location consumes 12 bytes. -/
def LocationsIter.run (it : LocationsIter) : POut (List Location) :=
  collectSteps LocationsIter.next (it.data.length + 1) it

/-- Collecting all live-outs: each yielded live-out consumes 4 bytes. -/
def LiveOutsIter.run (it : LiveOutsIter) : POut (List LiveOut) :=
  collectSteps LiveOutsIter.next (it.data.length + 1) it

/-- Decode one stack map and fully iterate its functions, the way
`stack_maps[0].functions().collect()` does. -/
def decode_functions (input : Bytes) : POut (List Function) :=
  match parse_stack_map input with
  | .ok (_, sm) => sm.functionsIter.run
  | .fail e => .fail e
  | .panicked => .panicked

/-- Invariant of decoder-constructed `FunctionsIter` states: the
function-table bytes are exactly 24 per remaining function. -/
def FunctionsIter.Inv (it : FunctionsIter) : Prop :=
  it.data.length = 24 * it.remaining_functions

/-- Invariant of decoder-constructed `RecordsIter` states: the remaining
count equals the number of remaining record slices. -/
def RecordsIter.Inv (it : RecordsIter) : Prop :=
  it.remaining_records = it.records.length

/-- Invariant of decoder-constructed `LocationsIter` states: the
location bytes are exactly 12 per remaining location. -/
def LocationsIter.Inv (it : LocationsIter) : Prop :=
  it.data.length = 12 * it.remaining_locations

/-- Invariant of decoder-constructed `LiveOutsIter` states: the live-out
bytes are exactly 4 per remaining live-out. -/
def LiveOutsIter.Inv (it : LiveOutsIter) : Prop :=
  it.data.length = 4 * it.remaining_live_outs

/-- Number of locations a record declares, read from bytes 14-15 of the
record's byte range. -/
def rec_nl (l : Bytes) : Nat := leVal ((l.drop 14).take 2)

/-- Byte offset, within a record, where the reserved u16 before the
live-out count sits: the 16-byte prefix plus the locations region plus
its alignment padding. -/
def rec_loA (l : Bytes) : Nat :=
  16 + rec_nl l * 12 + padding_size (16 + rec_nl l * 12) 8

/-- Number of live-outs a record declares, read just after `rec_loA`
plus the reserved u16. -/
def rec_nlo (l : Bytes) : Nat := leVal ((l.drop (rec_loA l + 2)).take 2)

/-- Offset, within a record, of the end of the live-outs region. -/
def rec_loEnd (l : Bytes) : Nat := rec_loA l + 4 + rec_nlo l * 4

/-- Total number of bytes a successful `parse_record` consumes. -/
def rec_total (l : Bytes) : Nat := rec_loEnd l + padding_size (rec_loEnd l) 8

/-- The record value a successful `parse_record` builds, expressed by
the positions of its fields inside the record's byte range. -/
def rec_of (l : Bytes) (c : List Nat) : Record :=
  { patch_point_id := leVal (l.take 8)
    instruction_offset := leVal ((l.drop 8).take 4)
    num_locations := rec_nl l
    num_live_outs := rec_nlo l
    locations := (l.drop 16).take (rec_nl l * 12)
    live_outs := (l.drop (rec_loA l + 4)).take (rec_nlo l * 4)
    constants := c }

/-- Little-endian four-byte encoding of an unsigned 32-bit value. -/
def u32le (n : Nat) : Bytes :=
  [n % 256, n / 256 % 256, n / 256 ^ 2 % 256, n / 256 ^ 3 % 256]

/-- Little-endian four-byte two's-complement encoding of a signed 32-bit
value. -/
def i32le (i : Int) : Bytes := u32le (i % (2 : Int) ^ 32).toNat

/-- Input of the shortfall scenario: version 3, one function whose entry
declares `record_count` 1, but `num_records` 0 so no record slice was
pre-scanned. -/
def c1_shortfall_input : Bytes :=
  [3, 0, 0, 0, 1, 0, 0, 0, 0, 0, 0, 0, 0, 0, 0, 0] ++
    List.replicate 16 0 ++ [1, 0, 0, 0, 0, 0, 0, 0]

/-- Input of the leftover scenario: version 3, zero functions but
`num_records` 1 followed by one minimal 24-byte record. -/
def c1_leftover_input : Bytes :=
  [3, 0, 0, 0, 0, 0, 0, 0, 0, 0, 0, 0, 1, 0, 0, 0] ++ List.replicate 24 0

/-- Section with an empty function table and a one-entry constant pool
whose bytes are 01..08; on a little-endian host the pool entry is
0x0807060504030201. -/
def c4_pool_input : Bytes :=
  [3, 0, 0, 0, 0, 0, 0, 0, 1, 0, 0, 0, 0, 0, 0, 0] ++ [1, 2, 3, 4, 5, 6, 7, 8]

/-- The repository's own 80-byte test fixture
(`single_function_record_location` in lib.rs): one function at 0x11c0
with stack size 88, one record (patch point 42, offset 15) with one
direct location and no live-outs. -/
def fixture_input : Bytes :=
  [0x03, 0x00, 0x00, 0x00, 0x01, 0x00, 0x00, 0x00, 0x00, 0x00, 0x00, 0x00, 0x01, 0x00,
   0x00, 0x00, 0xc0, 0x11, 0x00, 0x00, 0x00, 0x00, 0x00, 0x00, 0x58, 0x00, 0x00, 0x00,
   0x00, 0x00, 0x00, 0x00, 0x01, 0x00, 0x00, 0x00, 0x00, 0x00, 0x00, 0x00, 0x2a, 0x00,
   0x00, 0x00, 0x00, 0x00, 0x00, 0x00, 0x0f, 0x00, 0x00, 0x00, 0x00, 0x00, 0x01, 0x00,
   0x02, 0x00, 0x08, 0x00, 0x06, 0x00, 0x00, 0x00, 0xf6, 0xff, 0xff, 0xff, 0x00, 0x00,
   0x00, 0x00, 0x00, 0x00, 0x00, 0x00, 0x00, 0x00, 0x00, 0x00]

/-! Basic lemmas about the primitive readers. -/

theorem POut.bind_ok {α β : Type} (a : α) (f : α → POut β) :
    POut.bind (.ok a) f = f a := rfl

theorem POut.bind_fail {α β : Type} (e : Error) (f : α → POut β) :
    POut.bind (.fail e) f = .fail e := rfl

theorem POut.bind_panicked {α β : Type} (f : α → POut β) :
    POut.bind .panicked f = .panicked := rfl

theorem POut.bind_eq_ok {α β : Type} {x : POut α} {f : α → POut β} {y : β} :
    POut.bind x f = .ok y ↔ ∃ a, x = .ok a ∧ f a = .ok y := by
  cases x <;> simp [POut.bind]

theorem mkErr_ne_ok {α : Type} {l : Bytes} {k : ErrorKind} {v : α} :
    mkErr l k ≠ .ok v := by
  unfold mkErr; split <;> simp

theorem mkErr_of_lt {α : Type} {l : Bytes} (k : ErrorKind) (h : l.length < 8) :
    (mkErr l k : POut α) = .panicked := by
  unfold mkErr; rw [if_pos h]

theorem mkErr_of_ge {α : Type} {l : Bytes} (k : ErrorKind) (h : 8 ≤ l.length) :
    (mkErr l k : POut α) = .fail (.parserError (l.take 8) k) := by
  unfold mkErr; rw [if_neg (by omega)]

theorem leVal_nil : leVal [] = 0 := rfl

theorem leVal_cons (b : Nat) (l : Bytes) : leVal (b :: l) = b + 256 * leVal l := rfl

theorem leUint_eq_ok {w : Nat} {l : Bytes} {a : Bytes × Nat} :
    leUint w l = .ok a ↔ w ≤ l.length ∧ a = (l.drop w, leVal (l.take w)) := by
  constructor
  · intro h
    unfold leUint at h
    split at h
    · exact absurd h mkErr_ne_ok
    · rename_i hlt
      cases h
      exact ⟨by omega, rfl⟩
  · rintro ⟨h1, rfl⟩
    unfold leUint
    rw [if_neg (by omega)]

theorem leUint_of_le {w : Nat} {l : Bytes} (h : w ≤ l.length) :
    leUint w l = .ok (l.drop w, leVal (l.take w)) :=
  leUint_eq_ok.mpr ⟨h, rfl⟩

theorem leUint_underflow {w : Nat} {l : Bytes} (h : l.length < w) :
    leUint w l = mkErr l .eof := by
  unfold leUint; rw [if_pos h]

theorem takeB_eq_ok {n : Nat} {l : Bytes} {a : Bytes × Bytes} :
    takeB n l = .ok a ↔ n ≤ l.length ∧ a = (l.drop n, l.take n) := by
  constructor
  · intro h
    unfold takeB at h
    split at h
    · exact absurd h mkErr_ne_ok
    · rename_i hlt
      cases h
      exact ⟨by omega, rfl⟩
  · rintro ⟨h1, rfl⟩
    unfold takeB
    rw [if_neg (by omega)]

theorem takeB_of_le {n : Nat} {l : Bytes} (h : n ≤ l.length) :
    takeB n l = .ok (l.drop n, l.take n) :=
  takeB_eq_ok.mpr ⟨h, rfl⟩

theorem takeB_underflow {n : Nat} {l : Bytes} (h : l.length < n) :
    takeB n l = mkErr l .eof := by
  unfold takeB; rw [if_pos h]

theorem le_i32_eq_ok {l : Bytes} {a : Bytes × Int} :
    le_i32 l = .ok a ↔ 4 ≤ l.length ∧ a = (l.drop 4, toSigned32 (leVal (l.take 4))) := by
  constructor
  · intro h
    unfold le_i32 at h
    rw [POut.bind_eq_ok] at h
    obtain ⟨b, hb, hf⟩ := h
    obtain ⟨hw, rfl⟩ := leUint_eq_ok.mp hb
    cases hf
    exact ⟨hw, rfl⟩
  · rintro ⟨h1, rfl⟩
    unfold le_i32
    rw [leUint_of_le h1, POut.bind_ok]

theorem leUint_cons_1 (b : Nat) (l : Bytes) : leUint 1 (b :: l) = .ok (l, b) := by
  rw [leUint_of_le (by simp only [List.length_cons]; omega)]
  simp [leVal_cons, leVal_nil]

theorem leUint_cons_2 (b0 b1 : Nat) (l : Bytes) :
    leUint 2 (b0 :: b1 :: l) = .ok (l, b0 + 256 * b1) := by
  rw [leUint_of_le (by simp only [List.length_cons]; omega)]
  simp [leVal_cons, leVal_nil]

theorem le_i32_cons (o0 o1 o2 o3 : Nat) (l : Bytes) :
    le_i32 (o0 :: o1 :: o2 :: o3 :: l) =
      .ok (l, toSigned32 (leVal [o0, o1, o2, o3])) := by
  unfold le_i32
  rw [leUint_of_le (by simp only [List.length_cons]; omega), POut.bind_ok]
  rfl

theorem u32le_length (n : Nat) : (u32le n).length = 4 := rfl

theorem leVal_u32le {n : Nat} (h : n < 2 ^ 32) : leVal (u32le n) = n := by
  unfold u32le
  simp only [leVal_cons, leVal_nil]
  omega

theorem le_u32_append {n : Nat} (h : n < 2 ^ 32) (l : Bytes) :
    le_u32 (u32le n ++ l) = .ok (l, n) := by
  unfold le_u32
  rw [leUint_of_le (by simp [u32le])]
  rw [List.drop_left' (u32le_length n), List.take_left' (u32le_length n), leVal_u32le h]

/-! Claim C9: the padding formula. -/

/-- C9: padding_size(n, 8) equals (8 − (n mod 8)) mod 8 for every n, with
the three concrete values the spec lists. -/
theorem padding_size_formula :
    (∀ n : Nat, padding_size n 8 = (8 - n % 8) % 8) ∧
      padding_size 0 8 = 0 ∧ padding_size 3 8 = 5 ∧ padding_size 8 8 = 0 :=
  ⟨fun _ => rfl, rfl, rfl, rfl⟩

/-! Claims C5 and C6: constant locations. -/

/-- C5: a 12-byte location entry with kind tag 4 and zero reserved fields
decodes successfully to a `Constant` whose 64-bit value is the
`offset_or_index` i32 field reinterpreted as unsigned, i.e. converted
with Rust `as u64` semantics (`i32_as_u64`, the value modulo 2^64, which
sign-extends the 32-bit field); the entry's `size` field is decoded
alongside and exactly the 12 entry bytes are consumed. -/
theorem location_tag4_small_constant (s0 s1 d0 d1 o0 o1 o2 o3 : Nat)
    (rest : Bytes) (c : List Nat) :
    parse_location (4 :: 0 :: s0 :: s1 :: d0 :: d1 :: 0 :: 0 ::
        o0 :: o1 :: o2 :: o3 :: rest) c =
      .ok (rest,
        { kind := .constant (i32_as_u64 (toSigned32 (leVal [o0, o1, o2, o3]))),
          size := leVal [s0, s1] }) := by
  unfold parse_location le_u8 le_u16
  simp [leUint_cons_1, leUint_cons_2, POut.bind_ok, le_i32_cons, leVal_cons, leVal_nil]

theorem toSigned32_i32le {i : Int} (hlo : -(2 ^ 31) ≤ i) (hhi : i < 2 ^ 31) :
    toSigned32 ((i % (2 : Int) ^ 32).toNat) = i := by
  have e32 : (2 : Int) ^ 32 = 4294967296 := by norm_num
  have n32 : (2 : Nat) ^ 32 = 4294967296 := by norm_num
  have n31 : (2 : Nat) ^ 31 = 2147483648 := by norm_num
  have e31 : (2 : Int) ^ 31 = 2147483648 := by norm_num
  unfold toSigned32
  rw [e31] at hlo hhi
  rw [e32, n32, n31]
  split_ifs with h <;> omega

theorem le_i32_append {i : Int} (hlo : -(2 ^ 31) ≤ i) (hhi : i < 2 ^ 31) (l : Bytes) :
    le_i32 (i32le i ++ l) = .ok (l, i) := by
  unfold le_i32 i32le
  rw [leUint_of_le (by simp [u32le])]
  rw [List.drop_left' (u32le_length _), List.take_left' (u32le_length _), POut.bind_ok]
  have hm : ((i % (2 : Int) ^ 32).toNat) < 2 ^ 32 := by
    have e32 : (2 : Int) ^ 32 = 4294967296 := by norm_num
    have n32 : (2 : Nat) ^ 32 = 4294967296 := by norm_num
    rw [e32, n32]
    omega
  rw [leVal_u32le hm, toSigned32_i32le hlo hhi]

/-- C6: a 12-byte location entry with kind tag 5, zero reserved fields
and pool index i resolves to `Constant pool[i]` when 0 ≤ i < pool
length, and fails with `InvalidConstantIndex i` when i is negative or at
least the pool length. -/
theorem location_tag5_pool_index (s0 s1 d0 d1 : Nat) (i : Int) (rest : Bytes)
    (pool : List Nat) (hlo : -(2 ^ 31) ≤ i) (hhi : i < 2 ^ 31) :
    (0 ≤ i → i.toNat < pool.length →
      parse_location (5 :: 0 :: s0 :: s1 :: d0 :: d1 :: 0 :: 0 :: (i32le i ++ rest)) pool =
        .ok (rest, { kind := .constant (pool.getD i.toNat 0), size := leVal [s0, s1] }))
    ∧ ((i < 0 ∨ pool.length ≤ i.toNat) →
      parse_location (5 :: 0 :: s0 :: s1 :: d0 :: d1 :: 0 :: 0 :: (i32le i ++ rest)) pool =
        .fail (.invalidConstantIndex i)) := by
  have base : ∀ G : POut (Bytes × Location),
      (if i < 0 ∨ pool.length ≤ i.toNat then
        (.fail (.invalidConstantIndex i) : POut (Bytes × Location))
      else .ok (rest, { kind := .constant (pool.getD i.toNat 0), size := leVal [s0, s1] })) = G →
      parse_location (5 :: 0 :: s0 :: s1 :: d0 :: d1 :: 0 :: 0 :: (i32le i ++ rest)) pool = G := by
    intro G hG
    unfold parse_location le_u8 le_u16
    simp only [leUint_cons_1, POut.bind_ok, leUint_cons_2, le_i32_append hlo hhi]
    rw [← hG]
    simp [leVal_cons, leVal_nil]
  constructor
  · intro h0 hlen
    apply base
    rw [if_neg (by omega)]
  · intro hbad
    apply base
    rw [if_pos (by omega)]

/-- Witness for C6: pool index 0 into the one-element pool [77]
resolves to 77, and pool index −1 fails with `InvalidConstantIndex`. -/
theorem location_tag5_pool_index_witness :
    parse_location (5 :: 0 :: 8 :: 0 :: 6 :: 0 :: 0 :: 0 :: (i32le 0 ++ [])) [77] =
        .ok ([], { kind := .constant 77, size := 8 }) ∧
      parse_location (5 :: 0 :: 8 :: 0 :: 6 :: 0 :: 0 :: 0 :: (i32le (-1) ++ [])) [77] =
        .fail (.invalidConstantIndex (-1)) :=
  ⟨(location_tag5_pool_index 8 0 6 0 0 [] [77] (by norm_num) (by norm_num)).1
      (by norm_num) (by norm_num),
    (location_tag5_pool_index 8 0 6 0 (-1) [] [77] (by norm_num) (by norm_num)).2
      (Or.inl (by norm_num))⟩

/-! Claim C3: version and reserved-field checking. -/

theorem parse_header_cons (v z1 a b : Nat) (l : Bytes) :
    parse_header (v :: z1 :: a :: b :: l) =
      if z1 ≠ 0 ∨ a + 256 * b ≠ 0 then .fail .malformedHeader else .ok (l, v) := by
  unfold parse_header le_u8 le_u16
  simp only [leUint_cons_1, leUint_cons_2, POut.bind_ok]

/-- C3 counterexample: on the input whose version byte is 2 but whose
first reserved byte is 1, decoding fails with `MalformedHeader`, not
`UnsupportedVersion` — the reserved-field check runs before the version
check. -/
theorem nonzero_reserved_beats_version_check :
    parse_stack_map [2, 1, 0, 0] = .fail .malformedHeader ∧
      Error.malformedHeader ≠ Error.unsupportedVersion := by
  exact ⟨by decide, by decide⟩

/-- C3 amended: if the input carries a full 4-byte header whose version
byte differs from 3 and whose reserved fields are zero, decoding fails
with `UnsupportedVersion` (whatever bytes follow); nonzero reserved
fields instead take precedence with `MalformedHeader`. -/
theorem unsupported_version_with_zero_reserved (v : Nat) (l : Bytes) (h : v ≠ 3) :
    parse_stack_map (v :: 0 :: 0 :: 0 :: l) = .fail .unsupportedVersion := by
  unfold parse_stack_map
  rw [parse_header_cons, if_neg (by simp), POut.bind_ok,
    if_pos (show ((l, v).2 ≠ 3) from h)]

/-- Witness for the amended C3 at version byte 2. -/
theorem unsupported_version_with_zero_reserved_witness :
    parse_stack_map [2, 0, 0, 0] = .fail .unsupportedVersion :=
  unsupported_version_with_zero_reserved 2 [] (by decide)

/-! Claim C2: behavior on inputs whose declared structure extends past
the end of the buffer. -/

/-- C2 counterexample: a buffer holding only the version byte. The
second header read underflows with an empty remaining input, and
building the error value slices eight bytes out of it, so decoding
panics instead of returning the structural error. -/
theorem underflow_error_construction_panics :
    parse_stack_map [3] = .panicked := by decide

/-- C2 amended: a fixed-width field read that underflows always leaves
fewer than eight bytes at the failure point, so error construction
panics; a counted-slice read that underflows returns the structural
`ParserError` carrying the first eight remaining bytes (a snippet, not a
byte offset) and the `Eof` kind when at least eight bytes remain, and
panics otherwise. The conjuncts cover every read the decoder performs:
the primitives themselves, universally (every fixed-width width the
decoder uses is at most 8, and `take` in both regimes); every header
truncation; every count-field truncation; the function-table and
constant-pool `take` sites of `parse_stack_map` in both regimes; every
truncation of a record's fixed-width prefix; the locations-region
`take` of `parse_record` in both regimes; and the propagation of both
outcomes from a record parsed during the pre-scan out of
`parse_stack_map`. -/
theorem structural_underflow_behavior :
    (∀ (w : Nat) (l : Bytes), w ≤ 8 → l.length < w → leUint w l = .panicked)
    ∧ (∀ l : Bytes, l.length < 4 → le_i32 l = .panicked)
    ∧ (∀ (n : Nat) (l : Bytes), l.length < n →
        takeB n l =
          if l.length < 8 then .panicked else .fail (.parserError (l.take 8) .eof))
    ∧ (∀ l : Bytes, l.length < 4 → parse_stack_map l = .panicked)
    ∧ (∀ l : Bytes, l.length < 12 → parse_stack_map (3 :: 0 :: 0 :: 0 :: l) = .panicked)
    ∧ (∀ (l : Bytes) (nf nc nr : Nat), nf < 2 ^ 32 → nc < 2 ^ 32 → nr < 2 ^ 32 →
        l.length < nf * 24 →
        parse_stack_map (3 :: 0 :: 0 :: 0 :: (u32le nf ++ (u32le nc ++ (u32le nr ++ l)))) =
          if l.length < 8 then .panicked else .fail (.parserError (l.take 8) .eof))
    ∧ (∀ (l : Bytes) (nc nr : Nat), nc < 2 ^ 32 → nr < 2 ^ 32 →
        l.length < nc * 8 →
        parse_stack_map (3 :: 0 :: 0 :: 0 :: (u32le 0 ++ (u32le nc ++ (u32le nr ++ l)))) =
          if l.length < 8 then .panicked else .fail (.parserError (l.take 8) .eof))
    ∧ (∀ (l : Bytes) (c : List Nat), l.length < 16 → parse_record l c = .panicked)
    ∧ (∀ (pre : Bytes) (n0 n1 : Nat) (tail : Bytes) (c : List Nat),
        pre.length = 14 → tail.length < leVal [n0, n1] * 12 →
        parse_record (pre ++ n0 :: n1 :: tail) c =
          if tail.length < 8 then .panicked else .fail (.parserError (tail.take 8) .eof))
    ∧ (∀ (l : Bytes) (nr : Nat), nr < 2 ^ 32 → 1 ≤ nr →
        parse_record l [] = .panicked →
        parse_stack_map (3 :: 0 :: 0 :: 0 :: (u32le 0 ++ (u32le 0 ++ (u32le nr ++ l)))) =
          .panicked)
    ∧ (∀ (l : Bytes) (nr : Nat) (e : Error), nr < 2 ^ 32 → 1 ≤ nr →
        parse_record l [] = .fail e →
        parse_stack_map (3 :: 0 :: 0 :: 0 :: (u32le 0 ++ (u32le 0 ++ (u32le nr ++ l)))) =
          .fail e) := by
  refine ⟨?_, ?_, ?_, ?_, ?_, ?_, ?_, ?_, ?_, ?_, ?_⟩
  · intro w l hw hlt
    rw [leUint_underflow hlt, mkErr_of_lt _ (by omega)]
  · intro l hlt
    unfold le_i32
    rw [leUint_underflow hlt, mkErr_of_lt _ (by omega), POut.bind_panicked]
  · intro n l hlt
    by_cases h8 : l.length < 8
    · rw [takeB_underflow hlt, mkErr_of_lt _ h8, if_pos h8]
    · rw [takeB_underflow hlt, mkErr_of_ge _ (by omega), if_neg h8]
  · intro l hl
    unfold parse_stack_map parse_header le_u8 le_u16
    rcases l with _ | ⟨a, l⟩
    · rw [leUint_underflow (by decide), mkErr_of_lt _ (by decide),
        POut.bind_panicked, POut.bind_panicked]
    rw [leUint_cons_1, POut.bind_ok]
    dsimp only
    rcases l with _ | ⟨b, l⟩
    · rw [leUint_underflow (by decide), mkErr_of_lt _ (by decide),
        POut.bind_panicked, POut.bind_panicked]
    rw [leUint_cons_1, POut.bind_ok]
    dsimp only
    rcases l with _ | ⟨c, l⟩
    · rw [leUint_underflow (by decide), mkErr_of_lt _ (by decide),
        POut.bind_panicked, POut.bind_panicked]
    rcases l with _ | ⟨d, l⟩
    · rw [leUint_underflow (by simp), mkErr_of_lt _ (by simp),
        POut.bind_panicked, POut.bind_panicked]
    exact absurd hl (by simp only [List.length_cons]; omega)
  · intro l hlen
    unfold parse_stack_map
    rw [parse_header_cons, if_neg (by simp), POut.bind_ok,
      if_neg (show ¬(((l, 3) : Bytes × Nat).2 ≠ 3) from by simp)]
    dsimp only
    unfold le_u32
    by_cases h4 : l.length < 4
    · rw [leUint_underflow h4, mkErr_of_lt _ (by omega), POut.bind_panicked]
    · rw [leUint_of_le (by omega), POut.bind_ok]
      by_cases h8 : l.length < 8
      · rw [leUint_underflow (by simp only [List.length_drop]; omega),
          mkErr_of_lt _ (by simp only [List.length_drop]; omega), POut.bind_panicked]
      · rw [leUint_of_le (by simp only [List.length_drop]; omega), POut.bind_ok,
          leUint_underflow (by simp only [List.length_drop]; omega),
          mkErr_of_lt _ (by simp only [List.length_drop]; omega), POut.bind_panicked]
  · intro l nf nc nr hnf hnc hnr hshort
    unfold parse_stack_map
    rw [parse_header_cons, if_neg (by simp), POut.bind_ok,
      if_neg (show ¬(((u32le nf ++ (u32le nc ++ (u32le nr ++ l)), 3) : Bytes × Nat).2 ≠ 3)
        from by simp)]
    rw [le_u32_append hnf, POut.bind_ok, le_u32_append hnc, POut.bind_ok,
      le_u32_append hnr, POut.bind_ok]
    dsimp only
    unfold STACK_SIZE_RECORD_SIZE
    by_cases h8 : l.length < 8
    · rw [takeB_underflow (by omega), mkErr_of_lt _ h8, POut.bind_panicked, if_pos h8]
    · rw [takeB_underflow (by omega), mkErr_of_ge _ (by omega), POut.bind_fail, if_neg h8]
  · intro l nc nr hnc hnr hshort
    unfold parse_stack_map
    rw [parse_header_cons, if_neg (by simp), POut.bind_ok,
      if_neg (show ¬(((u32le 0 ++ (u32le nc ++ (u32le nr ++ l)), 3) : Bytes × Nat).2 ≠ 3)
        from by simp)]
    rw [le_u32_append (by norm_num), POut.bind_ok, le_u32_append hnc, POut.bind_ok,
      le_u32_append hnr, POut.bind_ok]
    dsimp only
    rw [show (0 : Nat) * STACK_SIZE_RECORD_SIZE = 0 from rfl,
      takeB_of_le (Nat.zero_le _), POut.bind_ok]
    dsimp only
    simp only [List.drop_zero]
    unfold CONSTANT_SIZE
    by_cases h8 : l.length < 8
    · rw [takeB_underflow (by omega), mkErr_of_lt _ h8, POut.bind_panicked, if_pos h8]
    · rw [takeB_underflow (by omega), mkErr_of_ge _ (by omega), POut.bind_fail, if_neg h8]
  · intro l c hl
    unfold parse_record le_u64 le_u32 le_u16
    by_cases h8 : l.length < 8
    · rw [leUint_underflow h8, mkErr_of_lt _ (by omega), POut.bind_panicked]
    · rw [leUint_of_le (by omega), POut.bind_ok]
      dsimp only
      by_cases h12 : l.length < 12
      · rw [leUint_underflow (by simp only [List.length_drop]; omega),
          mkErr_of_lt _ (by simp only [List.length_drop]; omega), POut.bind_panicked]
      · rw [leUint_of_le (by simp only [List.length_drop]; omega), POut.bind_ok]
        dsimp only
        by_cases h14 : l.length < 14
        · rw [leUint_underflow (by simp only [List.length_drop]; omega),
            mkErr_of_lt _ (by simp only [List.length_drop]; omega), POut.bind_panicked]
        · rw [leUint_of_le (by simp only [List.length_drop]; omega), POut.bind_ok]
          dsimp only
          rw [leUint_underflow (by simp only [List.length_drop]; omega),
            mkErr_of_lt _ (by simp only [List.length_drop]; omega), POut.bind_panicked]
  · intro pre n0 n1 tail c hpre hshort
    have hlen : (pre ++ n0 :: n1 :: tail).length = 16 + tail.length := by
      simp only [List.length_append, List.length_cons, hpre]
      omega
    unfold parse_record le_u64 le_u32 le_u16
    rw [leUint_of_le (by rw [hlen]; omega), POut.bind_ok]
    dsimp only
    rw [leUint_of_le (by simp only [List.length_drop, hlen]; omega), POut.bind_ok]
    dsimp only
    simp only [List.drop_drop, Nat.reduceAdd]
    rw [leUint_of_le (by simp only [List.length_drop, hlen]; omega), POut.bind_ok]
    dsimp only
    simp only [List.drop_drop, Nat.reduceAdd]
    rw [List.drop_left' hpre, leUint_cons_2, POut.bind_ok]
    dsimp only
    unfold LOCATION_SIZE
    have hv : leVal [n0, n1] = n0 + 256 * n1 := by simp [leVal_cons, leVal_nil]
    rw [hv] at hshort
    by_cases h8 : tail.length < 8
    · rw [takeB_underflow (by omega), mkErr_of_lt _ h8, POut.bind_panicked, if_pos h8]
    · rw [takeB_underflow (by omega), mkErr_of_ge _ (by omega), POut.bind_fail, if_neg h8]
  · intro l nr hnr h1 hpan
    unfold parse_stack_map
    rw [parse_header_cons, if_neg (by simp), POut.bind_ok,
      if_neg (show ¬(((u32le 0 ++ (u32le 0 ++ (u32le nr ++ l)), 3) : Bytes × Nat).2 ≠ 3)
        from by simp)]
    rw [le_u32_append (by norm_num), POut.bind_ok, le_u32_append (by norm_num), POut.bind_ok,
      le_u32_append hnr, POut.bind_ok]
    dsimp only
    rw [show (0 : Nat) * STACK_SIZE_RECORD_SIZE = 0 from rfl,
      takeB_of_le (Nat.zero_le _), POut.bind_ok]
    dsimp only
    rw [show (0 : Nat) * CONSTANT_SIZE = 0 from rfl,
      takeB_of_le (Nat.zero_le _), POut.bind_ok]
    dsimp only
    simp only [List.drop_zero, List.take_zero]
    rw [show decode_constants [] 0 = ([] : List Nat) from rfl]
    obtain ⟨m, rfl⟩ : ∃ m, nr = m + 1 := ⟨nr - 1, by omega⟩
    rw [prescan, hpan, POut.bind_panicked, POut.bind_panicked]
  · intro l nr e hnr h1 hfail
    unfold parse_stack_map
    rw [parse_header_cons, if_neg (by simp), POut.bind_ok,
      if_neg (show ¬(((u32le 0 ++ (u32le 0 ++ (u32le nr ++ l)), 3) : Bytes × Nat).2 ≠ 3)
        from by simp)]
    rw [le_u32_append (by norm_num), POut.bind_ok, le_u32_append (by norm_num), POut.bind_ok,
      le_u32_append hnr, POut.bind_ok]
    dsimp only
    rw [show (0 : Nat) * STACK_SIZE_RECORD_SIZE = 0 from rfl,
      takeB_of_le (Nat.zero_le _), POut.bind_ok]
    dsimp only
    rw [show (0 : Nat) * CONSTANT_SIZE = 0 from rfl,
      takeB_of_le (Nat.zero_le _), POut.bind_ok]
    dsimp only
    simp only [List.drop_zero, List.take_zero]
    rw [show decode_constants [] 0 = ([] : List Nat) from rfl]
    obtain ⟨m, rfl⟩ : ∃ m, nr = m + 1 := ⟨nr - 1, by omega⟩
    rw [prescan, hfail, POut.bind_fail, POut.bind_fail]

/-- Witness for the amended C2, exercising one concrete instance of each
kind of site: a fixed-width primitive underflow, a short counted-slice
underflow, a truncated header, a function-table take over a short
remainder, a constant-pool take over an eight-byte remainder, a
truncated record prefix, a locations-region take over a nine-byte
remainder, and a record truncation propagating out of the pre-scan. -/
theorem structural_underflow_behavior_witness :
    leUint 8 [1, 2, 3] = .panicked ∧
      takeB 5 [1, 2] = .panicked ∧
      parse_stack_map [7, 7, 7] = .panicked ∧
      parse_stack_map [3, 0, 0, 0] = .panicked ∧
      parse_stack_map (3 :: 0 :: 0 :: 0 ::
          (u32le 1 ++ (u32le 0 ++ (u32le 0 ++ [5, 5, 5])))) = .panicked ∧
      parse_stack_map (3 :: 0 :: 0 :: 0 ::
          (u32le 1 ++ (u32le 0 ++ (u32le 0 ++ [5, 5, 5, 5, 5, 5, 5, 5])))) =
        .fail (.parserError [5, 5, 5, 5, 5, 5, 5, 5] .eof) ∧
      parse_stack_map (3 :: 0 :: 0 :: 0 ::
          (u32le 0 ++ (u32le 2 ++ (u32le 0 ++ [6, 6, 6, 6, 6, 6, 6, 6, 6])))) =
        .fail (.parserError [6, 6, 6, 6, 6, 6, 6, 6] .eof) ∧
      parse_record [1, 2, 3] [] = .panicked ∧
      parse_record (List.replicate 14 0 ++ 1 :: 0 :: List.replicate 9 9) [] =
        .fail (.parserError [9, 9, 9, 9, 9, 9, 9, 9] .eof) ∧
      parse_stack_map (3 :: 0 :: 0 :: 0 ::
          (u32le 0 ++ (u32le 0 ++ (u32le 1 ++ [1, 2, 3])))) = .panicked :=
  ⟨structural_underflow_behavior.1 8 [1, 2, 3] (by decide) (by decide),
    structural_underflow_behavior.2.2.1 5 [1, 2] (by decide),
    structural_underflow_behavior.2.2.2.1 [7, 7, 7] (by decide),
    structural_underflow_behavior.2.2.2.2.1 [] (by decide),
    structural_underflow_behavior.2.2.2.2.2.1 [5, 5, 5] 1 0 0 (by decide) (by decide)
      (by decide) (by decide),
    structural_underflow_behavior.2.2.2.2.2.1 [5, 5, 5, 5, 5, 5, 5, 5] 1 0 0 (by decide)
      (by decide) (by decide) (by decide),
    structural_underflow_behavior.2.2.2.2.2.2.1 [6, 6, 6, 6, 6, 6, 6, 6, 6] 2 0 (by decide)
      (by decide) (by decide),
    structural_underflow_behavior.2.2.2.2.2.2.2.1 [1, 2, 3] [] (by decide),
    structural_underflow_behavior.2.2.2.2.2.2.2.2.1 (List.replicate 14 0) 1 0
      (List.replicate 9 9) [] (by decide) (by decide),
    structural_underflow_behavior.2.2.2.2.2.2.2.2.2.1 [1, 2, 3] 1 (by decide) (by decide)
      (structural_underflow_behavior.2.2.2.2.2.2.2.1 [1, 2, 3] [] (by decide))⟩

/-! Claim C1: function/record partition mismatches. -/

/-- C1 evaluation: with records left over after the function table is
exhausted, iterating the functions fails with `FunctionRecordMismatch`;
but when a function's declared record_count exceeds the remaining record
ranges, `Vec::split_off` panics instead of producing that error. -/
theorem function_record_mismatch_behavior :
    decode_functions c1_leftover_input = .fail .functionRecordMismatch ∧
      decode_functions c1_shortfall_input = .panicked := by
  exact ⟨by decide, by decide⟩

/-! Characterization of `parse_record`: a successful parse consumes
exactly `rec_total` bytes and builds `rec_of`. -/

theorem parse_record_ok_elim {l : Bytes} {c : List Nat} {r : Bytes} {rec : Record}
    (h : parse_record l c = .ok (r, rec)) :
    rec_total l ≤ l.length ∧ r = l.drop (rec_total l) ∧ rec = rec_of l c := by
  unfold parse_record at h
  simp only [POut.bind_eq_ok] at h
  obtain ⟨a1, h1, a2, h2, a3, h3, a4, h4, a5, h5, a6, h6, a7, h7, a8, h8, a9, h9,
    a10, h10, hfin⟩ := h
  unfold le_u64 at h1
  obtain ⟨hL1, rfl⟩ := leUint_eq_ok.mp h1
  dsimp only at h2
  unfold le_u32 at h2
  obtain ⟨hL2, rfl⟩ := leUint_eq_ok.mp h2
  dsimp only at h3
  unfold le_u16 at h3
  obtain ⟨hL3, rfl⟩ := leUint_eq_ok.mp h3
  dsimp only at h4
  unfold le_u16 at h4
  obtain ⟨hL4, rfl⟩ := leUint_eq_ok.mp h4
  dsimp only at h5
  obtain ⟨hL5, rfl⟩ := takeB_eq_ok.mp h5
  dsimp only at h6
  obtain ⟨hL6, rfl⟩ := takeB_eq_ok.mp h6
  dsimp only at h7
  unfold le_u16 at h7
  obtain ⟨hL7, rfl⟩ := leUint_eq_ok.mp h7
  dsimp only at h8
  unfold le_u16 at h8
  obtain ⟨hL8, rfl⟩ := leUint_eq_ok.mp h8
  dsimp only at h9
  obtain ⟨hL9, rfl⟩ := takeB_eq_ok.mp h9
  dsimp only at h10
  obtain ⟨hL10, rfl⟩ := takeB_eq_ok.mp h10
  dsimp only at hfin
  clear h1 h2 h3 h4 h5 h6 h7 h8 h9 h10
  simp only [List.drop_drop, List.length_drop, Nat.reduceAdd, LOCATION_SIZE,
    LIVE_OUT_SIZE, ALIGNMENT_BYTES] at hL2 hL3 hL4 hL5 hL6 hL7 hL8 hL9 hL10 hfin
  set x := leVal (List.take 2 (List.drop 14 l)) with hx
  have e1 : l.length - (l.length - (16 + x * 12)) = 16 + x * 12 := by omega
  rw [e1] at hL6 hL7 hL8 hL9 hL10 hfin
  set p1 := padding_size (16 + x * 12) 8 with hp1
  have e2 : 16 + x * 12 + p1 + 2 + 2 = 16 + x * 12 + p1 + 4 := by omega
  rw [e2] at hL9 hL10 hfin
  set y := leVal (List.take 2 (List.drop (16 + x * 12 + p1 + 2) l)) with hy
  have e3 : l.length - (l.length - (16 + x * 12 + p1 + 4 + y * 4)) =
      16 + x * 12 + p1 + 4 + y * 4 := by omega
  rw [e3] at hL10 hfin
  set p2 := padding_size (16 + x * 12 + p1 + 4 + y * 4) 8 with hp2
  simp only [POut.ok.injEq, Prod.mk.injEq] at hfin
  obtain ⟨rfl, rfl⟩ := hfin
  refine ⟨?_, ?_, ?_⟩
  · unfold rec_total rec_loEnd rec_nlo rec_loA rec_nl
    rw [← hx, ← hp1, ← hy, ← hp2]
    omega
  · unfold rec_total rec_loEnd rec_nlo rec_loA rec_nl
    rw [← hx, ← hp1, ← hy, ← hp2]
  · unfold rec_of rec_nlo rec_loA rec_nl
    rw [← hx, ← hp1, ← hy]

theorem parse_record_ok_intro {l : Bytes} (c : List Nat) (h : rec_total l ≤ l.length) :
    parse_record l c = .ok (l.drop (rec_total l), rec_of l c) := by
  unfold rec_total rec_loEnd rec_nlo rec_loA rec_nl at h
  unfold rec_of rec_total rec_loEnd rec_nlo rec_loA rec_nl
  unfold parse_record le_u64 le_u32 le_u16
  simp only [POut.bind_eq_ok, leUint_eq_ok, takeB_eq_ok, LOCATION_SIZE,
    LIVE_OUT_SIZE, ALIGNMENT_BYTES]
  refine ⟨_, ⟨by omega, rfl⟩, ?_⟩
  dsimp only
  refine ⟨_, ⟨by (try simp only [List.length_drop]); omega, rfl⟩, ?_⟩
  dsimp only
  simp only [List.drop_drop, Nat.reduceAdd]
  refine ⟨_, ⟨by (try simp only [List.length_drop]); omega, rfl⟩, ?_⟩
  dsimp only
  simp only [List.drop_drop, Nat.reduceAdd]
  refine ⟨_, ⟨by (try simp only [List.length_drop]); omega, rfl⟩, ?_⟩
  dsimp only
  simp only [List.drop_drop, Nat.reduceAdd]
  refine ⟨_, ⟨by (try simp only [List.length_drop]); omega, rfl⟩, ?_⟩
  dsimp only
  simp only [List.drop_drop, List.length_drop, Nat.reduceAdd]
  rw [show List.length l -
      (List.length l - (16 + leVal (List.take 2 (List.drop 14 l)) * 12)) =
      16 + leVal (List.take 2 (List.drop 14 l)) * 12 from by omega]
  refine ⟨_, ⟨by omega, rfl⟩, ?_⟩
  dsimp only
  simp only [List.drop_drop, List.length_drop, Nat.reduceAdd]
  refine ⟨_, ⟨by omega, rfl⟩, ?_⟩
  dsimp only
  simp only [List.drop_drop, Nat.reduceAdd]
  refine ⟨_, ⟨by (try simp only [List.length_drop]); omega, rfl⟩, ?_⟩
  dsimp only
  simp only [List.drop_drop, Nat.reduceAdd]
  rw [show 16 + leVal (List.take 2 (List.drop 14 l)) * 12 +
        padding_size (16 + leVal (List.take 2 (List.drop 14 l)) * 12) 8 + 2 + 2 =
      16 + leVal (List.take 2 (List.drop 14 l)) * 12 +
        padding_size (16 + leVal (List.take 2 (List.drop 14 l)) * 12) 8 + 4 from by omega]
  refine ⟨_, ⟨by (try simp only [List.length_drop]); omega, rfl⟩, ?_⟩
  dsimp only
  simp only [List.drop_drop, List.length_drop, Nat.reduceAdd]
  rw [show List.length l -
      (List.length l -
        (16 + leVal (List.take 2 (List.drop 14 l)) * 12 +
          padding_size (16 + leVal (List.take 2 (List.drop 14 l)) * 12) 8 + 4 +
          leVal (List.take 2 (List.drop
            (16 + leVal (List.take 2 (List.drop 14 l)) * 12 +
              padding_size (16 + leVal (List.take 2 (List.drop 14 l)) * 12) 8 + 2) l)) * 4)) =
      16 + leVal (List.take 2 (List.drop 14 l)) * 12 +
        padding_size (16 + leVal (List.take 2 (List.drop 14 l)) * 12) 8 + 4 +
        leVal (List.take 2 (List.drop
          (16 + leVal (List.take 2 (List.drop 14 l)) * 12 +
            padding_size (16 + leVal (List.take 2 (List.drop 14 l)) * 12) 8 + 2) l)) * 4
      from by omega]
  refine ⟨_, ⟨by omega, rfl⟩, ?_⟩
  dsimp only

theorem take_prefix_read (l : Bytes) (k w m : Nat) (h : k + w ≤ m) :
    ((l.take m).drop k).take w = (l.drop k).take w := by
  rw [List.drop_take, List.take_take, min_eq_left (by omega)]

theorem rec_loA_ge (l : Bytes) : 16 + rec_nl l * 12 ≤ rec_loA l := by
  unfold rec_loA; omega

theorem rec_loEnd_ge (l : Bytes) : rec_loA l + 4 ≤ rec_loEnd l := by
  unfold rec_loEnd; omega

theorem rec_total_ge (l : Bytes) : rec_loEnd l ≤ rec_total l := by
  unfold rec_total; omega

theorem rec_total_mod (l : Bytes) : rec_total l % 8 = 0 := by
  unfold rec_total padding_size; omega

theorem rec_nl_take {l : Bytes} {m : Nat} (h : 16 ≤ m) : rec_nl (l.take m) = rec_nl l := by
  unfold rec_nl
  rw [take_prefix_read l 14 2 m (by omega)]

theorem rec_loA_take {l : Bytes} {m : Nat} (h : 16 ≤ m) : rec_loA (l.take m) = rec_loA l := by
  unfold rec_loA
  rw [rec_nl_take h]

theorem rec_nlo_take {l : Bytes} {m : Nat} (h : rec_loA l + 4 ≤ m) :
    rec_nlo (l.take m) = rec_nlo l := by
  have h16 : 16 ≤ m := by have := rec_loA_ge l; omega
  unfold rec_nlo
  rw [rec_loA_take h16, take_prefix_read l (rec_loA l + 2) 2 m (by omega)]

theorem rec_loEnd_take {l : Bytes} {m : Nat} (h : rec_loEnd l ≤ m) :
    rec_loEnd (l.take m) = rec_loEnd l := by
  have hA := rec_loA_ge l
  have hE := rec_loEnd_ge l
  unfold rec_loEnd
  rw [rec_loA_take (by omega), rec_nlo_take (by omega)]

theorem rec_total_take {l : Bytes} {m : Nat} (h : rec_total l ≤ m) :
    rec_total (l.take m) = rec_total l := by
  have hT := rec_total_ge l
  unfold rec_total
  rw [rec_loEnd_take (by omega)]

theorem rec_of_take {l : Bytes} {m : Nat} (c : List Nat) (h : rec_total l ≤ m) :
    rec_of (l.take m) c = rec_of l c := by
  have hA := rec_loA_ge l
  have hE := rec_loEnd_ge l
  have hT := rec_total_ge l
  unfold rec_of
  rw [rec_nl_take (by omega), rec_nlo_take (by omega), rec_loA_take (by omega)]
  rw [List.take_take, min_eq_left (by omega)]
  rw [take_prefix_read l 8 4 m (by omega)]
  rw [take_prefix_read l 16 (rec_nl l * 12) m (by omega)]
  rw [take_prefix_read l (rec_loA l + 4) (rec_nlo l * 4) m
    (by have hEq : rec_loEnd l = rec_loA l + 4 + rec_nlo l * 4 := rfl; omega)]

/-- A pre-scanned record range re-parses exactly: if `parse_record`
succeeds on `l` leaving `r`, then running it again on precisely the
consumed prefix succeeds, consumes the whole prefix, and rebuilds the
same record; the consumed length is a multiple of 8. -/
theorem parse_record_take {l : Bytes} {c : List Nat} {r : Bytes} {rec : Record}
    (h : parse_record l c = .ok (r, rec)) :
    parse_record (l.take (l.length - r.length)) c = .ok ([], rec) ∧
      (l.length - r.length) % 8 = 0 ∧ r = l.drop (l.length - r.length) := by
  obtain ⟨hT, hr, hrec⟩ := parse_record_ok_elim h
  subst hr
  subst hrec
  have hn : l.length - (l.drop (rec_total l)).length = rec_total l := by
    simp only [List.length_drop]; omega
  rw [hn]
  refine ⟨?_, rec_total_mod l, rfl⟩
  have hstep := parse_record_ok_intro (l := l.take (rec_total l)) c
    (by rw [rec_total_take (le_refl _)]; simp only [List.length_take]; omega)
  rw [rec_total_take (le_refl _), rec_of_take c (le_refl _)] at hstep
  rw [hstep]
  have hnil : (l.take (rec_total l)).drop (rec_total l) = [] := by
    rw [List.drop_eq_nil_iff]
    simp only [List.length_take]
    omega
  rw [hnil]

/-- Every slice retained by the record pre-scan re-parses to completion
and has 8-byte-aligned length. -/
theorem prescan_slices {c : List Nat} :
    ∀ (n : Nat) (b : Bytes) (out : Bytes × List Bytes),
      prescan c n b = .ok out →
      ∀ s ∈ out.2, (∃ rec, parse_record s c = .ok ([], rec)) ∧ s.length % 8 = 0 := by
  intro n
  induction n with
  | zero =>
    intro b out h s hs
    unfold prescan at h
    cases h
    simp at hs
  | succ n ih =>
    intro b out h s hs
    unfold prescan at h
    rw [POut.bind_eq_ok] at h
    obtain ⟨pr, hpr, h2⟩ := h
    dsimp only at h2
    rw [POut.bind_eq_ok] at h2
    obtain ⟨tail, htail, hout⟩ := h2
    cases hout
    dsimp only at hs
    rcases List.mem_cons.mp hs with hhead | htl
    · subst hhead
      obtain ⟨rest1, rec1⟩ := pr
      have hpt := parse_record_take hpr
      exact ⟨⟨rec1, hpt.1⟩, by
        have := hpt.2.1
        simpa using this⟩
    · exact ih pr.1 tail htail s htl

/-- Structural facts about a successfully decoded stack map: version 3,
a function table of exactly 24 bytes per declared function, and record
slices that re-parse exactly with 8-byte-aligned lengths. -/
theorem parse_stack_map_ok_elim {input r : Bytes} {sm : StackMap}
    (h : parse_stack_map input = .ok (r, sm)) :
    sm.version = 3 ∧
      sm.functions.length = 24 * sm.num_functions ∧
      ∀ s ∈ sm.record_slices,
        (∃ rec, parse_record s sm.constants = .ok ([], rec)) ∧ s.length % 8 = 0 := by
  unfold parse_stack_map at h
  simp only [POut.bind_eq_ok] at h
  obtain ⟨a0, hhdr, h⟩ := h
  split at h
  · exact absurd h (by simp)
  · rename_i hv
    simp only [POut.bind_eq_ok] at h
    obtain ⟨a1, h1, a2, h2, a3, h3, a4, h4, a5, h5, a6, h6, hfin⟩ := h
    obtain ⟨hB4, rfl⟩ := takeB_eq_ok.mp h4
    simp only [POut.ok.injEq, Prod.mk.injEq] at hfin
    obtain ⟨rfl, rfl⟩ := hfin
    refine ⟨?_, ?_, ?_⟩
    · dsimp only
      omega
    · dsimp only
      simp only [List.length_take]
      unfold STACK_SIZE_RECORD_SIZE at hB4 ⊢
      omega
    · dsimp only
      intro s hs
      exact prescan_slices _ _ _ h6 s hs

/-- C7: every record byte range produced by the stack-map pre-scan
re-parses during record iteration with no bytes left over, so the
`assert!(rest.is_empty())` in `RecordsIter::next` cannot fail for
pre-scanned slices. -/
theorem prescanned_record_slices_reparse_exactly
    (input r : Bytes) (sm : StackMap) (h : parse_stack_map input = .ok (r, sm)) :
    ∀ s ∈ sm.record_slices, ∃ rec, parse_record s sm.constants = .ok ([], rec) :=
  fun s hs => ((parse_stack_map_ok_elim h).2.2 s hs).1

/-- C10: the total consumed length of every successfully parsed record
is a multiple of 8, and hence every raw record range retained by the
pre-scan has 8-byte-aligned length. -/
theorem record_slices_eight_byte_aligned :
    (∀ (l : Bytes) (c : List Nat) (r : Bytes) (rec : Record),
        parse_record l c = .ok (r, rec) → (l.length - r.length) % 8 = 0)
    ∧ ∀ (input r : Bytes) (sm : StackMap), parse_stack_map input = .ok (r, sm) →
        ∀ s ∈ sm.record_slices, s.length % 8 = 0 :=
  ⟨fun _ _ _ _ h => (parse_record_take h).2.1,
    fun _ _ _ h s hs => ((parse_stack_map_ok_elim h).2.2 s hs).2⟩

/-- Witness for C7 on the repository's 80-byte fixture: its single
pre-scanned 40-byte record slice re-parses to completion. -/
theorem prescanned_record_slices_reparse_exactly_witness :
    ∃ rec, parse_record
        [42, 0, 0, 0, 0, 0, 0, 0, 15, 0, 0, 0, 0, 0, 1, 0, 2, 0, 8, 0, 6, 0, 0, 0,
          246, 255, 255, 255, 0, 0, 0, 0, 0, 0, 0, 0, 0, 0, 0, 0] [] =
      .ok ([], rec) :=
  prescanned_record_slices_reparse_exactly fixture_input []
    { version := 3, num_functions := 1,
      functions := [192, 17, 0, 0, 0, 0, 0, 0, 88, 0, 0, 0, 0, 0, 0, 0,
        1, 0, 0, 0, 0, 0, 0, 0],
      record_slices := [[42, 0, 0, 0, 0, 0, 0, 0, 15, 0, 0, 0, 0, 0, 1, 0, 2, 0, 8, 0,
        6, 0, 0, 0, 246, 255, 255, 255, 0, 0, 0, 0, 0, 0, 0, 0, 0, 0, 0, 0]],
      constants := [] }
    (by decide) _ (by decide)

/-- Witness for C10: the minimal 24-byte all-zero record consumes a
multiple of eight bytes. -/
theorem record_slices_eight_byte_aligned_witness :
    ((List.replicate 24 0 : Bytes).length - ([] : Bytes).length) % 8 = 0 :=
  record_slices_eight_byte_aligned.1 (List.replicate 24 0) [] []
    { patch_point_id := 0, instruction_offset := 0, num_locations := 0,
      num_live_outs := 0, locations := [], live_outs := [], constants := [] }
    (by decide)

/-! Claim C8: iterator size hints. -/

theorem parse_live_out_ok_shape {l : Bytes} {r : Bytes} {lo : LiveOut}
    (h : parse_live_out l = .ok (r, lo)) : 4 ≤ l.length ∧ r = l.drop 4 := by
  unfold parse_live_out le_u16 le_u8 at h
  simp only [POut.bind_eq_ok, leUint_eq_ok] at h
  obtain ⟨a1, ⟨hL1, rfl⟩, a2, ⟨hL2, rfl⟩, a3, ⟨hL3, rfl⟩, hfin⟩ := h
  simp only [POut.ok.injEq, Prod.mk.injEq] at hfin
  obtain ⟨rfl, -⟩ := hfin
  simp only [List.length_drop] at hL2 hL3
  refine ⟨by omega, ?_⟩
  simp only [List.drop_drop, Nat.reduceAdd]

theorem parse_location_ok_shape {l : Bytes} {c : List Nat} {r : Bytes} {loc : Location}
    (h : parse_location l c = .ok (r, loc)) : 12 ≤ l.length ∧ r = l.drop 12 := by
  unfold parse_location le_u8 le_u16 at h
  simp only [POut.bind_eq_ok, leUint_eq_ok, le_i32_eq_ok] at h
  obtain ⟨a1, ⟨hL1, rfl⟩, a2, ⟨hL2, rfl⟩, a3, ⟨hL3, rfl⟩, a4, ⟨hL4, rfl⟩,
    a5, ⟨hL5, rfl⟩, a6, ⟨hL6, rfl⟩, hfin⟩ := h
  simp only [List.length_drop] at hL2 hL3 hL4 hL5 hL6
  refine ⟨by omega, ?_⟩
  have hrest : ∀ (x : Location), POut.ok (l.drop 12, x) = .ok (r, loc) → r = l.drop 12 := by
    intro x hx
    simp only [POut.ok.injEq, Prod.mk.injEq] at hx
    exact hx.1.symm
  simp only [List.drop_drop, Nat.reduceAdd] at hfin
  split at hfin
  · exact absurd hfin (by simp)
  · split at hfin
    · exact hrest _ hfin
    · exact hrest _ hfin
    · exact hrest _ hfin
    · exact hrest _ hfin
    · split at hfin
      · exact absurd hfin (by simp)
      · exact hrest _ hfin
    · exact absurd hfin (by simp)

theorem parse_function_ok_shape {l : Bytes} {records : List Bytes} {c : List Nat}
    {r : Bytes} {rr : List Bytes} {f : Function}
    (h : parse_function l records c = .ok (r, rr, f)) : 24 ≤ l.length ∧ r = l.drop 24 := by
  unfold parse_function le_u64 at h
  simp only [POut.bind_eq_ok, leUint_eq_ok] at h
  obtain ⟨a1, ⟨hL1, rfl⟩, a2, ⟨hL2, rfl⟩, a3, ⟨hL3, rfl⟩, hfin⟩ := h
  simp only [List.length_drop] at hL2 hL3
  refine ⟨by omega, ?_⟩
  split at hfin
  · exact absurd hfin (by simp)
  · simp only [POut.ok.injEq, Prod.mk.injEq] at hfin
    obtain ⟨hr, -⟩ := hfin
    rw [← hr]
    simp only [List.drop_drop, Nat.reduceAdd]

/-- Counting lemma for the collect loop: under an invariant whose
remaining-count decreases by one per yielded item and is zero at the end,
a successful run yields exactly the remaining count. -/
theorem collectSteps_length {σ α : Type} (next : σ → Step σ α) (Inv : σ → Prop)
    (rem : σ → Nat)
    (hyield : ∀ s s' a, Inv s → next s = .yield s' a → Inv s' ∧ rem s = rem s' + 1)
    (hdone : ∀ s, Inv s → next s = .done → rem s = 0) :
    ∀ (fuel : Nat) (s : σ) (xs : List α), Inv s → rem s < fuel →
      collectSteps next fuel s = .ok xs → xs.length = rem s := by
  intro fuel
  induction fuel with
  | zero => intro s xs _ hlt _; exact absurd hlt (by omega)
  | succ n ih =>
    intro s xs hInv hlt hrun
    unfold collectSteps at hrun
    cases hnext : next s with
    | done =>
      rw [hnext] at hrun
      dsimp only at hrun
      simp only [POut.ok.injEq] at hrun
      rw [← hrun, hdone s hInv hnext]
      rfl
    | fail e => rw [hnext] at hrun; exact absurd hrun (by simp)
    | panicked => rw [hnext] at hrun; exact absurd hrun (by simp)
    | yield s' a =>
      rw [hnext] at hrun
      dsimp only at hrun
      obtain ⟨hInv', hcount⟩ := hyield s s' a hInv hnext
      cases hrec : collectSteps next n s' with
      | ok ys =>
        rw [hrec] at hrun
        simp only [POut.ok.injEq] at hrun
        rw [← hrun]
        have := ih s' ys hInv' (by omega) hrec
        simp only [List.length_cons]
        omega
      | fail e => rw [hrec] at hrun; exact absurd hrun (by simp)
      | panicked => rw [hrec] at hrun; exact absurd hrun (by simp)

theorem functionsIter_next_yield {it it' : FunctionsIter} {f : Function}
    (hInv : it.Inv) (h : it.next = .yield it' f) :
    it'.Inv ∧ it.remaining_functions = it'.remaining_functions + 1 := by
  unfold FunctionsIter.next at h
  unfold FunctionsIter.Inv at hInv ⊢
  split at h
  · split at h <;> exact absurd h (by simp)
  · rename_i hne
    cases hpf : parse_function it.data it.record_slices it.constants with
    | ok v =>
      obtain ⟨rest, rr, fv⟩ := v
      rw [hpf] at h
      dsimp only at h
      simp only [Step.yield.injEq] at h
      obtain ⟨rfl, -⟩ := h
      obtain ⟨hlen, rfl⟩ := parse_function_ok_shape hpf
      have hpos : it.data.length ≠ 0 := by
        intro h0
        exact hne (List.eq_nil_of_length_eq_zero h0)
      dsimp only
      simp only [List.length_drop]
      omega
    | fail e => rw [hpf] at h; exact absurd h (by simp)
    | panicked => rw [hpf] at h; exact absurd h (by simp)

theorem functionsIter_next_done {it : FunctionsIter}
    (hInv : it.Inv) (h : it.next = .done) : it.remaining_functions = 0 := by
  unfold FunctionsIter.next at h
  unfold FunctionsIter.Inv at hInv
  split at h
  · rename_i hnil
    rw [hnil] at hInv
    simp only [List.length_nil] at hInv
    omega
  · cases hpf : parse_function it.data it.record_slices it.constants with
    | ok v => obtain ⟨rest, rr, fv⟩ := v; rw [hpf] at h; exact absurd h (by simp)
    | fail e => rw [hpf] at h; exact absurd h (by simp)
    | panicked => rw [hpf] at h; exact absurd h (by simp)

theorem recordsIter_next_yield {it it' : RecordsIter} {x : Record}
    (hInv : it.Inv) (h : it.next = .yield it' x) :
    it'.Inv ∧ it.remaining_records = it'.remaining_records + 1 := by
  unfold RecordsIter.next at h
  unfold RecordsIter.Inv at hInv ⊢
  cases hrecs : it.records with
  | nil => rw [hrecs] at h; exact absurd h (by simp)
  | cons s tl =>
    rw [hrecs] at h
    dsimp only at h
    cases hpr : parse_record s it.constants with
    | ok v =>
      rw [hpr] at h
      dsimp only at h
      split at h
      · simp only [Step.yield.injEq] at h
        obtain ⟨rfl, -⟩ := h
        rw [hrecs] at hInv
        simp only [List.length_cons] at hInv
        dsimp only
        omega
      · exact absurd h (by simp)
    | fail e => rw [hpr] at h; exact absurd h (by simp)
    | panicked => rw [hpr] at h; exact absurd h (by simp)

theorem recordsIter_next_done {it : RecordsIter}
    (hInv : it.Inv) (h : it.next = .done) : it.remaining_records = 0 := by
  unfold RecordsIter.next at h
  unfold RecordsIter.Inv at hInv
  cases hrecs : it.records with
  | nil => rw [hrecs] at hInv; simpa using hInv
  | cons s tl =>
    rw [hrecs] at h
    dsimp only at h
    cases hpr : parse_record s it.constants with
    | ok v =>
      rw [hpr] at h
      dsimp only at h
      split at h <;> exact absurd h (by simp)
    | fail e => rw [hpr] at h; exact absurd h (by simp)
    | panicked => rw [hpr] at h; exact absurd h (by simp)

theorem locationsIter_next_yield {it it' : LocationsIter} {x : Location}
    (hInv : it.Inv) (h : it.next = .yield it' x) :
    it'.Inv ∧ it.remaining_locations = it'.remaining_locations + 1 := by
  unfold LocationsIter.next at h
  unfold LocationsIter.Inv at hInv ⊢
  split at h
  · exact absurd h (by simp)
  · rename_i hne
    cases hpl : parse_location it.data it.constants with
    | ok v =>
      obtain ⟨rest, lv⟩ := v
      rw [hpl] at h
      dsimp only at h
      simp only [Step.yield.injEq] at h
      obtain ⟨rfl, -⟩ := h
      obtain ⟨hlen, rfl⟩ := parse_location_ok_shape hpl
      have hpos : it.data.length ≠ 0 := by
        intro h0
        exact hne (List.eq_nil_of_length_eq_zero h0)
      dsimp only
      simp only [List.length_drop]
      omega
    | fail e => rw [hpl] at h; exact absurd h (by simp)
    | panicked => rw [hpl] at h; exact absurd h (by simp)

theorem locationsIter_next_done {it : LocationsIter}
    (hInv : it.Inv) (h : it.next = .done) : it.remaining_locations = 0 := by
  unfold LocationsIter.next at h
  unfold LocationsIter.Inv at hInv
  split at h
  · rename_i hnil
    rw [hnil] at hInv
    simp only [List.length_nil] at hInv
    omega
  · cases hpl : parse_location it.data it.constants with
    | ok v => obtain ⟨rest, lv⟩ := v; rw [hpl] at h; exact absurd h (by simp)
    | fail e => rw [hpl] at h; exact absurd h (by simp)
    | panicked => rw [hpl] at h; exact absurd h (by simp)

theorem liveOutsIter_next_yield {it it' : LiveOutsIter} {x : LiveOut}
    (hInv : it.Inv) (h : it.next = .yield it' x) :
    it'.Inv ∧ it.remaining_live_outs = it'.remaining_live_outs + 1 := by
  unfold LiveOutsIter.next at h
  unfold LiveOutsIter.Inv at hInv ⊢
  split at h
  · exact absurd h (by simp)
  · rename_i hne
    cases hpl : parse_live_out it.data with
    | ok v =>
      obtain ⟨rest, lv⟩ := v
      rw [hpl] at h
      dsimp only at h
      simp only [Step.yield.injEq] at h
      obtain ⟨rfl, -⟩ := h
      obtain ⟨hlen, rfl⟩ := parse_live_out_ok_shape hpl
      have hpos : it.data.length ≠ 0 := by
        intro h0
        exact hne (List.eq_nil_of_length_eq_zero h0)
      dsimp only
      simp only [List.length_drop]
      omega
    | fail e => rw [hpl] at h; exact absurd h (by simp)
    | panicked => rw [hpl] at h; exact absurd h (by simp)

theorem liveOutsIter_next_done {it : LiveOutsIter}
    (hInv : it.Inv) (h : it.next = .done) : it.remaining_live_outs = 0 := by
  unfold LiveOutsIter.next at h
  unfold LiveOutsIter.Inv at hInv
  split at h
  · rename_i hnil
    rw [hnil] at hInv
    simp only [List.length_nil] at hInv
    omega
  · cases hpl : parse_live_out it.data with
    | ok v => obtain ⟨rest, lv⟩ := v; rw [hpl] at h; exact absurd h (by simp)
    | fail e => rw [hpl] at h; exact absurd h (by simp)
    | panicked => rw [hpl] at h; exact absurd h (by simp)

theorem parse_record_region_lengths {l : Bytes} {c : List Nat} {r : Bytes} {rec : Record}
    (h : parse_record l c = .ok (r, rec)) :
    rec.locations.length = 12 * rec.num_locations ∧
      rec.live_outs.length = 4 * rec.num_live_outs := by
  obtain ⟨hT, -, rfl⟩ := parse_record_ok_elim h
  have hA := rec_loA_ge l
  have hE := rec_loEnd_ge l
  have hTT := rec_total_ge l
  have hEq : rec_loEnd l = rec_loA l + 4 + rec_nlo l * 4 := rfl
  unfold rec_of
  dsimp only
  simp only [List.length_take, List.length_drop]
  omega

theorem functionsIter_run_length {it : FunctionsIter} {xs : List Function}
    (hInv : it.Inv) (h : it.run = .ok xs) : xs.length = it.remaining_functions := by
  unfold FunctionsIter.run at h
  exact collectSteps_length _ FunctionsIter.Inv (fun s => s.remaining_functions)
    (fun _ _ _ hI hn => functionsIter_next_yield hI hn)
    (fun _ hI hn => functionsIter_next_done hI hn)
    _ it xs hInv (by unfold FunctionsIter.Inv at hInv; dsimp only; omega) h

theorem recordsIter_run_length {it : RecordsIter} {xs : List Record}
    (hInv : it.Inv) (h : it.run = .ok xs) : xs.length = it.remaining_records := by
  unfold RecordsIter.run at h
  exact collectSteps_length _ RecordsIter.Inv (fun s => s.remaining_records)
    (fun _ _ _ hI hn => recordsIter_next_yield hI hn)
    (fun _ hI hn => recordsIter_next_done hI hn)
    _ it xs hInv (by unfold RecordsIter.Inv at hInv; dsimp only; omega) h

theorem locationsIter_run_length {it : LocationsIter} {xs : List Location}
    (hInv : it.Inv) (h : it.run = .ok xs) : xs.length = it.remaining_locations := by
  unfold LocationsIter.run at h
  exact collectSteps_length _ LocationsIter.Inv (fun s => s.remaining_locations)
    (fun _ _ _ hI hn => locationsIter_next_yield hI hn)
    (fun _ hI hn => locationsIter_next_done hI hn)
    _ it xs hInv (by unfold LocationsIter.Inv at hInv; dsimp only; omega) h

theorem liveOutsIter_run_length {it : LiveOutsIter} {xs : List LiveOut}
    (hInv : it.Inv) (h : it.run = .ok xs) : xs.length = it.remaining_live_outs := by
  unfold LiveOutsIter.run at h
  exact collectSteps_length _ LiveOutsIter.Inv (fun s => s.remaining_live_outs)
    (fun _ _ _ hI hn => liveOutsIter_next_yield hI hn)
    (fun _ hI hn => liveOutsIter_next_done hI hn)
    _ it xs hInv (by unfold LiveOutsIter.Inv at hInv; dsimp only; omega) h

/-- C8: for each of the four iterators, on every state satisfying its
structural invariant the declared size hint equals the number of items a
full error-free iteration still yields; decoder-constructed iterators
satisfy the invariant, and every yielded step preserves it, so the hint
is correct at any point during iteration. -/
theorem iterator_size_hints_match_yields :
    (∀ (it : FunctionsIter) (xs : List Function), it.Inv → it.run = .ok xs →
        it.size_hint = (xs.length, some xs.length))
    ∧ (∀ (it : RecordsIter) (xs : List Record), it.Inv → it.run = .ok xs →
        it.size_hint = (xs.length, some xs.length))
    ∧ (∀ (it : LocationsIter) (xs : List Location), it.Inv → it.run = .ok xs →
        it.size_hint = (xs.length, some xs.length))
    ∧ (∀ (it : LiveOutsIter) (xs : List LiveOut), it.Inv → it.run = .ok xs →
        it.size_hint = (xs.length, some xs.length))
    ∧ (∀ (input r : Bytes) (sm : StackMap), parse_stack_map input = .ok (r, sm) →
        sm.functionsIter.Inv)
    ∧ (∀ f : Function, f.recordsIter.Inv)
    ∧ (∀ (l : Bytes) (c : List Nat) (r : Bytes) (rec : Record),
        parse_record l c = .ok (r, rec) → rec.locationsIter.Inv ∧ rec.liveOutsIter.Inv)
    ∧ (∀ (it it' : FunctionsIter) (x : Function), it.Inv → it.next = .yield it' x → it'.Inv)
    ∧ (∀ (it it' : RecordsIter) (x : Record), it.Inv → it.next = .yield it' x → it'.Inv)
    ∧ (∀ (it it' : LocationsIter) (x : Location), it.Inv → it.next = .yield it' x → it'.Inv)
    ∧ (∀ (it it' : LiveOutsIter) (x : LiveOut), it.Inv → it.next = .yield it' x → it'.Inv) := by
  refine ⟨?_, ?_, ?_, ?_, ?_, ?_, ?_, ?_, ?_, ?_, ?_⟩
  · intro it xs hI hrun
    unfold FunctionsIter.size_hint
    rw [functionsIter_run_length hI hrun]
  · intro it xs hI hrun
    unfold RecordsIter.size_hint
    rw [recordsIter_run_length hI hrun]
  · intro it xs hI hrun
    unfold LocationsIter.size_hint
    rw [locationsIter_run_length hI hrun]
  · intro it xs hI hrun
    unfold LiveOutsIter.size_hint
    rw [liveOutsIter_run_length hI hrun]
  · intro input r sm h
    unfold StackMap.functionsIter FunctionsIter.Inv
    exact (parse_stack_map_ok_elim h).2.1
  · intro f
    unfold Function.recordsIter RecordsIter.Inv
    rfl
  · intro l c r rec h
    have hr := parse_record_region_lengths h
    unfold Record.locationsIter LocationsIter.Inv Record.liveOutsIter LiveOutsIter.Inv
    exact hr
  · exact fun _ _ _ hI hn => (functionsIter_next_yield hI hn).1
  · exact fun _ _ _ hI hn => (recordsIter_next_yield hI hn).1
  · exact fun _ _ _ hI hn => (locationsIter_next_yield hI hn).1
  · exact fun _ _ _ hI hn => (liveOutsIter_next_yield hI hn).1

/-- Witness for C8: a one-location iterator and a one-function iterator
as the decoder builds them report hint 1 and yield exactly one item. -/
theorem iterator_size_hints_match_yields_witness :
    LocationsIter.size_hint
        { data := [2, 0, 8, 0, 6, 0, 0, 0, 246, 255, 255, 255], constants := [],
          remaining_locations := 1 } = (1, some 1) ∧
      FunctionsIter.size_hint
        { data := List.replicate 24 0, record_slices := [], constants := [],
          remaining_functions := 1 } = (1, some 1) :=
  ⟨iterator_size_hints_match_yields.2.2.1
      { data := [2, 0, 8, 0, 6, 0, 0, 0, 246, 255, 255, 255], constants := [],
        remaining_locations := 1 }
      [{ kind := .direct 6 (-10), size := 8 }]
      (by unfold LocationsIter.Inv; decide) (by decide),
    iterator_size_hints_match_yields.1
      { data := List.replicate 24 0, record_slices := [], constants := [],
        remaining_functions := 1 }
      [{ address := 0, stack_size := 0, records := [], constants := [] }]
      (by unfold FunctionsIter.Inv; decide) (by decide)⟩

/-! Claim C4: the constant pool. -/

/-- C4 evaluation, little-endian-host model: in the embedding, where the
source's raw-memory reinterpretation is modelled by the chunkwise
little-endian decode it performs on a little-endian host, the section
with pool bytes 01..08 yields the single pool value 0x0807060504030201.
The source itself reads the pool with
`slice::from_raw_parts(bytes.as_ptr().cast::<u64>(), n)`, whose result
depends on host byte order and whose alignment requirement the input
slice does not guarantee. -/
theorem constant_pool_le_host_eval :
    parse_stack_map c4_pool_input =
      .ok ([], { version := 3, num_functions := 0, functions := [],
                 record_slices := [], constants := [0x0807060504030201] }) := by
  decide

end StackMapRs
